import Mathlib

/-!
# Verification of the `SourceEditor` core of arzg/editor

Shallow embedding of `src/main.rs`, struct `SourceEditor` and its `impl`
(lines 149–278).  Lines are modelled as `List Char` (the spec allows
character-unit indexing), the buffer as `List (List Char)`, and `usize`
fields as `Nat`.  Every operation that can panic in Rust — out-of-bounds
`Vec`/`String` indexing (`buffer[row]`, `String::insert`, `String::remove`,
`Vec::remove`, `String::split_off`) and checked `usize` subtraction
underflow (`self.row - self.scroll` in `render`) — is embedded as an
`Option`-valued function returning `none` exactly when the Rust call would
fail its bound check.
-/

/-- The editor state, mirroring `struct SourceEditor` (main.rs:149–157):
`buffer: Vec<String>`, `width`, `height`, `row`, `column`, `scroll: usize`. -/
structure SourceEditor where
  buffer : List (List Char)
  width : Nat
  height : Nat
  row : Nat
  column : Nat
  scroll : Nat
deriving Repr, DecidableEq

namespace SourceEditor

/-- The end-of-document marker line `"~"` used by `render` (main.rs:172). -/
def tilde : List Char := ['~']

/-- `SourceEditor::scroll_to_show_cursor` (main.rs:261–270).  In the second
branch the Rust computes `self.row - self.height + 1` on `usize`; there
`row ≥ scroll + height ≥ height`, so the subtraction never underflows and
truncated `Nat` subtraction agrees with it. -/
def scroll_to_show_cursor (s : SourceEditor) : SourceEditor :=
  let top_line := s.scroll
  let bottom_line := s.scroll + s.height
  if s.row < top_line then
    { s with scroll := s.row }
  else if bottom_line ≤ s.row then
    { s with scroll := s.row - s.height + 1 }
  else
    s

/-- `SourceEditor::clamp_column` (main.rs:272–277).  `self.buffer[self.row]`
panics when `row` is out of bounds, hence the `Option`. -/
def clamp_column (s : SourceEditor) : Option SourceEditor :=
  match s.buffer[s.row]? with
  | none => none
  | some line =>
    some (if line.length < s.column then { s with column := line.length } else s)

/-- `SourceEditor::render` (main.rs:171–191).  It fills `height` rows with
`"~"`, overwrites the first `min(height, |buffer| - scroll)` of them with the
visible lines (each one kept whole when `len < width`, else cut to its first
`width` characters), and returns `(lines, self.column, self.row - self.scroll)`.
The final `usize` subtraction fails when `scroll > row`, hence the guard. -/
def render (s : SourceEditor) : Option (List (List Char) × Nat × Nat) :=
  if s.scroll ≤ s.row then
    let window := (s.buffer.drop s.scroll).take s.height
    let shown := window.map fun line =>
      if line.length < s.width then line else line.take s.width
    some (shown ++ List.replicate (s.height - shown.length) tilde,
      s.column, s.row - s.scroll)
  else
    none

/-- `SourceEditor::resize` (main.rs:193–197). -/
def resize (s : SourceEditor) (width height : Nat) : SourceEditor :=
  scroll_to_show_cursor { s with width := width, height := height }

/-- `SourceEditor::keypress` (main.rs:199–202): `String::insert` panics when
`column > len(line)`; `self.buffer[self.row]` panics when `row` is out of
bounds. -/
def keypress (s : SourceEditor) (c : Char) : Option SourceEditor :=
  match s.buffer[s.row]? with
  | none => none
  | some line =>
    if s.column ≤ line.length then
      some { s with buffer := s.buffer.set s.row (line.insertIdx s.column c),
                    column := s.column + 1 }
    else
      none

/-- `SourceEditor::backspace` (main.rs:204–220).  Merge case: `Vec::remove`
returns the removed line (panics if `row` is out of bounds), then the code
indexes the shortened buffer at `row - 1` (panics if that is out of bounds)
and appends the removed line to it.  Delete case: `String::remove` panics
when `column - 1 ≥ len(line)`. -/
def backspace (s : SourceEditor) : Option SourceEditor :=
  if s.column = 0 then
    if s.row = 0 then
      some s
    else
      match s.buffer[s.row]? with
      | none => none
      | some removed =>
        match (s.buffer.eraseIdx s.row)[s.row - 1]? with
        | none => none
        | some prev =>
          some { s with buffer := (s.buffer.eraseIdx s.row).set (s.row - 1)
                          (prev ++ removed),
                        row := s.row - 1,
                        column := prev.length }
  else
    match s.buffer[s.row]? with
    | none => none
    | some line =>
      if s.column - 1 < line.length then
        some { s with buffer := s.buffer.set s.row (line.eraseIdx (s.column - 1)),
                      column := s.column - 1 }
      else
        none

/-- `SourceEditor::enter` (main.rs:222–228): `String::split_off` panics when
`column > len(line)`; the subsequent `Vec::insert` at `row + 1` cannot fail
because the earlier indexing guarantees `row < |buffer|`. -/
def enter (s : SourceEditor) : Option SourceEditor :=
  match s.buffer[s.row]? with
  | none => none
  | some line =>
    if s.column ≤ line.length then
      some (scroll_to_show_cursor
        { s with buffer := (s.buffer.set s.row (line.take s.column)).insertIdx
                    (s.row + 1) (line.drop s.column),
                 row := s.row + 1,
                 column := 0 })
    else
      none

/-- `SourceEditor::left` (main.rs:230–234). -/
def left (s : SourceEditor) : SourceEditor :=
  if s.column ≠ 0 then { s with column := s.column - 1 } else s

/-- `SourceEditor::right` (main.rs:235–239): indexes `buffer[row]`. -/
def right (s : SourceEditor) : Option SourceEditor :=
  match s.buffer[s.row]? with
  | none => none
  | some line =>
    some (if s.column < line.length then { s with column := s.column + 1 } else s)

/-- `SourceEditor::up` (main.rs:240–246). -/
def up (s : SourceEditor) : Option SourceEditor :=
  let s' := if s.row ≠ 0 then { s with row := s.row - 1 } else s
  (clamp_column s').map scroll_to_show_cursor

/-- `SourceEditor::down` (main.rs:247–253).  The Rust `self.buffer.len() - 1`
is `usize` subtraction; on a non-empty buffer truncated `Nat` subtraction
agrees with it (on an empty buffer `clamp_column` fails first either way). -/
def down (s : SourceEditor) : Option SourceEditor :=
  let s' := if s.row < s.buffer.length - 1 then { s with row := s.row + 1 } else s
  (clamp_column s').map scroll_to_show_cursor

/-- `SourceEditor::home` (main.rs:254–256). -/
def home (s : SourceEditor) : SourceEditor :=
  { s with column := 0 }

/-- `SourceEditor::end` (main.rs:257–259); `end` is a Lean keyword, so the
embedding calls it `endKey`. -/
def endKey (s : SourceEditor) : Option SourceEditor :=
  match s.buffer[s.row]? with
  | none => none
  | some line => some { s with column := line.length }

end SourceEditor

/-- The abstract commands the event loop dispatches to the editor
(main.rs:104–137): arrow keys, Home/End, printable characters, Backspace,
Enter and terminal resize. -/
inductive Cmd where
  | moveLeft
  | moveRight
  | moveUp
  | moveDown
  | home
  | endOfLine
  | insertChar (c : Char)
  | backspace
  | enter
  | resize (width height : Nat)
deriving Repr, DecidableEq

/-- Dispatch of one command to the corresponding `SourceEditor` method, as in
`Ui::handle_event` (main.rs:104–137). -/
def Cmd.apply (c : Cmd) (s : SourceEditor) : Option SourceEditor :=
  match c with
  | .moveLeft => some s.left
  | .moveRight => s.right
  | .moveUp => s.up
  | .moveDown => s.down
  | .home => some s.home
  | .endOfLine => s.endKey
  | .insertChar ch => s.keypress ch
  | .backspace => s.backspace
  | .enter => s.enter
  | .resize w h => some (s.resize w h)

namespace SourceEditor

/-- Cursor well-formedness from the spec's data model: `row` indexes a line
of the (hence non-empty) buffer and `column` is at most that line's length. -/
def WF (s : SourceEditor) : Prop :=
  s.row < s.buffer.length ∧ s.column ≤ (s.buffer.getD s.row []).length

instance (s : SourceEditor) : Decidable s.WF := by
  unfold WF; infer_instance

/-! ## Basic lemmas about the embedding -/

theorem set_getElem?_self {α : Type} : ∀ (l : List α) (n : Nat) (a : α),
    l[n]? = some a → l.set n a = l
  | [], _, _, h => by simp at h
  | x :: xs, 0, a, h => by
    simp only [List.getElem?_cons_zero, Option.some.injEq] at h
    simp [h]
  | x :: xs, n + 1, a, h => by
    simp only [List.getElem?_cons_succ] at h
    rw [List.set_cons_succ, set_getElem?_self xs n a h]

theorem scroll_to_show_cursor_eq (s : SourceEditor) :
    scroll_to_show_cursor s = { s with scroll :=
      if s.row < s.scroll then s.row
      else if s.scroll + s.height ≤ s.row then s.row - s.height + 1
      else s.scroll } := by
  simp only [scroll_to_show_cursor]
  split
  · rfl
  · split <;> rfl

theorem scroll_to_show_cursor_buffer (s : SourceEditor) :
    (scroll_to_show_cursor s).buffer = s.buffer := by
  rw [scroll_to_show_cursor_eq]

theorem scroll_to_show_cursor_row (s : SourceEditor) :
    (scroll_to_show_cursor s).row = s.row := by
  rw [scroll_to_show_cursor_eq]

theorem scroll_to_show_cursor_column (s : SourceEditor) :
    (scroll_to_show_cursor s).column = s.column := by
  rw [scroll_to_show_cursor_eq]

theorem wf_def (s : SourceEditor) :
    s.WF ↔ ∃ line, s.buffer[s.row]? = some line ∧ s.column ≤ line.length := by
  constructor
  · rintro ⟨h1, h2⟩
    refine ⟨s.buffer[s.row], List.getElem?_eq_getElem h1, ?_⟩
    rwa [List.getD_eq_getElem?_getD, List.getElem?_eq_getElem h1,
      Option.getD_some] at h2
  · rintro ⟨line, hl, hc⟩
    obtain ⟨hlt, he⟩ := List.getElem?_eq_some.mp hl
    refine ⟨hlt, ?_⟩
    rw [List.getD_eq_getElem?_getD, hl, Option.getD_some]
    exact hc

theorem wf_scroll_to_show_cursor {s : SourceEditor} (h : s.WF) :
    (scroll_to_show_cursor s).WF := by
  unfold WF at h ⊢
  rwa [scroll_to_show_cursor_buffer, scroll_to_show_cursor_row,
    scroll_to_show_cursor_column]

/-! ## Equation lemmas for the `Option`-valued operations -/

theorem clamp_column_eq (s : SourceEditor) (line : List Char)
    (hl : s.buffer[s.row]? = some line) :
    clamp_column s =
      some (if line.length < s.column then { s with column := line.length }
        else s) := by
  unfold clamp_column
  rw [hl]

theorem keypress_eq (s : SourceEditor) (c : Char) (line : List Char)
    (hl : s.buffer[s.row]? = some line) (hc : s.column ≤ line.length) :
    keypress s c = some { s with
      buffer := s.buffer.set s.row (line.insertIdx s.column c),
      column := s.column + 1 } := by
  unfold keypress
  rw [hl]
  exact if_pos hc

theorem backspace_noop_eq (s : SourceEditor) (hc : s.column = 0)
    (hr : s.row = 0) : backspace s = some s := by
  unfold backspace
  rw [if_pos hc, if_pos hr]

theorem backspace_merge_eq (s : SourceEditor) (removed prev : List Char)
    (hc : s.column = 0) (hr : s.row ≠ 0)
    (hcur : s.buffer[s.row]? = some removed)
    (hprev : (s.buffer.eraseIdx s.row)[s.row - 1]? = some prev) :
    backspace s = some { s with
      buffer := (s.buffer.eraseIdx s.row).set (s.row - 1) (prev ++ removed),
      row := s.row - 1,
      column := prev.length } := by
  unfold backspace
  rw [if_pos hc, if_neg hr, hcur, hprev]

theorem backspace_delete_eq (s : SourceEditor) (line : List Char)
    (hc : s.column ≠ 0) (hl : s.buffer[s.row]? = some line)
    (hlt : s.column - 1 < line.length) :
    backspace s = some { s with
      buffer := s.buffer.set s.row (line.eraseIdx (s.column - 1)),
      column := s.column - 1 } := by
  unfold backspace
  rw [if_neg hc, hl]
  exact if_pos hlt

theorem enter_eq (s : SourceEditor) (line : List Char)
    (hl : s.buffer[s.row]? = some line) (hc : s.column ≤ line.length) :
    enter s = some (scroll_to_show_cursor
      { s with buffer := (s.buffer.set s.row (line.take s.column)).insertIdx
                  (s.row + 1) (line.drop s.column),
               row := s.row + 1,
               column := 0 }) := by
  unfold enter
  rw [hl]
  exact if_pos hc

theorem right_eq (s : SourceEditor) (line : List Char)
    (hl : s.buffer[s.row]? = some line) :
    right s = some (if s.column < line.length then { s with column := s.column + 1 }
      else s) := by
  unfold right
  rw [hl]

theorem endKey_eq (s : SourceEditor) (line : List Char)
    (hl : s.buffer[s.row]? = some line) :
    endKey s = some { s with column := line.length } := by
  unfold endKey
  rw [hl]

theorem up_eq (s : SourceEditor) :
    up s = (clamp_column (if s.row ≠ 0 then { s with row := s.row - 1 } else s)).map
      scroll_to_show_cursor := rfl

theorem down_eq (s : SourceEditor) :
    down s = (clamp_column (if s.row < s.buffer.length - 1 then
      { s with row := s.row + 1 } else s)).map scroll_to_show_cursor := rfl

/-! ## Well-formedness preservation -/

theorem wf_buffer_ne_nil {s : SourceEditor} (h : s.WF) : s.buffer ≠ [] :=
  List.length_pos.mp (Nat.lt_of_le_of_lt (Nat.zero_le _) h.1)

theorem wf_left {s : SourceEditor} (h : s.WF) : s.left.WF := by
  unfold left
  split
  · exact ⟨h.1, Nat.le_trans (Nat.sub_le _ _) h.2⟩
  · exact h

theorem wf_home {s : SourceEditor} (h : s.WF) : s.home.WF :=
  ⟨h.1, Nat.zero_le _⟩

theorem wf_resize (w ht : Nat) {s : SourceEditor} (h : s.WF) :
    (s.resize w ht).WF :=
  wf_scroll_to_show_cursor ⟨h.1, h.2⟩

theorem right_wf {s : SourceEditor} (h : s.WF) :
    ∃ s', right s = some s' ∧ s'.WF := by
  obtain ⟨line, hl, hc⟩ := (wf_def s).mp h
  refine ⟨_, right_eq s line hl, ?_⟩
  split
  · next hlt => exact (wf_def _).mpr ⟨line, hl, hlt⟩
  · exact h

theorem endKey_wf {s : SourceEditor} (h : s.WF) :
    ∃ s', endKey s = some s' ∧ s'.WF := by
  obtain ⟨line, hl, _⟩ := (wf_def s).mp h
  exact ⟨_, endKey_eq s line hl, (wf_def _).mpr ⟨line, hl, Nat.le_refl _⟩⟩

theorem clamp_column_wf {s : SourceEditor} (h : s.row < s.buffer.length) :
    ∃ s', clamp_column s = some s' ∧ s'.WF ∧ s'.buffer = s.buffer ∧
      s'.row = s.row := by
  have hl := List.getElem?_eq_getElem h
  refine ⟨_, clamp_column_eq s _ hl, ?_, ?_, ?_⟩
  · split
    · exact (wf_def _).mpr ⟨_, hl, Nat.le_refl _⟩
    · next hn => exact (wf_def _).mpr ⟨_, hl, Nat.le_of_not_lt hn⟩
  · split <;> rfl
  · split <;> rfl

theorem up_wf {s : SourceEditor} (h : s.WF) :
    ∃ s', up s = some s' ∧ s'.WF := by
  rw [up_eq]
  by_cases h0 : s.row ≠ 0
  · rw [if_pos h0]
    obtain ⟨s₁, hcl, hw, _, _⟩ :=
      @clamp_column_wf { s with row := s.row - 1 }
        (Nat.lt_of_le_of_lt (Nat.sub_le _ _) h.1)
    rw [hcl]
    exact ⟨_, rfl, wf_scroll_to_show_cursor hw⟩
  · rw [if_neg h0]
    obtain ⟨s₁, hcl, hw, _, _⟩ := clamp_column_wf h.1
    rw [hcl]
    exact ⟨_, rfl, wf_scroll_to_show_cursor hw⟩

theorem down_wf {s : SourceEditor} (h : s.WF) :
    ∃ s', down s = some s' ∧ s'.WF := by
  rw [down_eq]
  by_cases h0 : s.row < s.buffer.length - 1
  · rw [if_pos h0]
    obtain ⟨s₁, hcl, hw, _, _⟩ :=
      @clamp_column_wf { s with row := s.row + 1 }
        (by show s.row + 1 < s.buffer.length; omega)
    rw [hcl]
    exact ⟨_, rfl, wf_scroll_to_show_cursor hw⟩
  · rw [if_neg h0]
    obtain ⟨s₁, hcl, hw, _, _⟩ := clamp_column_wf h.1
    rw [hcl]
    exact ⟨_, rfl, wf_scroll_to_show_cursor hw⟩

theorem keypress_wf {s : SourceEditor} (c : Char) (h : s.WF) :
    ∃ s', keypress s c = some s' ∧ s'.WF := by
  obtain ⟨line, hl, hc⟩ := (wf_def s).mp h
  refine ⟨_, keypress_eq s c line hl hc,
    (wf_def _).mpr ⟨line.insertIdx s.column c, ?_, ?_⟩⟩
  · show (s.buffer.set s.row (line.insertIdx s.column c))[s.row]? =
      some (line.insertIdx s.column c)
    rw [List.getElem?_set]
    simp [h.1]
  · show s.column + 1 ≤ (line.insertIdx s.column c).length
    rw [List.length_insertIdx _ _ hc]
    omega

theorem backspace_wf {s : SourceEditor} (h : s.WF) :
    ∃ s', backspace s = some s' ∧ s'.WF := by
  obtain ⟨line, hl, hc⟩ := (wf_def s).mp h
  by_cases h0 : s.column = 0
  · by_cases hr : s.row = 0
    · exact ⟨s, backspace_noop_eq s h0 hr, h⟩
    · have hrow := h.1
      have hlen : (s.buffer.eraseIdx s.row).length = s.buffer.length - 1 := by
        rw [List.length_eraseIdx, if_pos hrow]
      have hr1 : s.row - 1 < (s.buffer.eraseIdx s.row).length := by omega
      have hprev := List.getElem?_eq_getElem hr1
      refine ⟨_, backspace_merge_eq s line ((s.buffer.eraseIdx s.row)[s.row - 1])
        h0 hr hl hprev, (wf_def _).mpr
        ⟨(s.buffer.eraseIdx s.row)[s.row - 1] ++ line, ?_, ?_⟩⟩
      · show ((s.buffer.eraseIdx s.row).set (s.row - 1)
            ((s.buffer.eraseIdx s.row)[s.row - 1] ++ line))[s.row - 1]? =
          some ((s.buffer.eraseIdx s.row)[s.row - 1] ++ line)
        rw [List.getElem?_set]
        simp [hr1]
      · show ((s.buffer.eraseIdx s.row)[s.row - 1]).length ≤
          ((s.buffer.eraseIdx s.row)[s.row - 1] ++ line).length
        simp
  · have hlt : s.column - 1 < line.length := by
      have h2 := hc
      have h3 := Nat.pos_of_ne_zero h0
      omega
    refine ⟨_, backspace_delete_eq s line h0 hl hlt,
      (wf_def _).mpr ⟨line.eraseIdx (s.column - 1), ?_, ?_⟩⟩
    · show (s.buffer.set s.row (line.eraseIdx (s.column - 1)))[s.row]? =
        some (line.eraseIdx (s.column - 1))
      rw [List.getElem?_set]
      simp [h.1]
    · show s.column - 1 ≤ (line.eraseIdx (s.column - 1)).length
      rw [List.length_eraseIdx, if_pos hlt]
      omega

theorem enter_wf {s : SourceEditor} (h : s.WF) :
    ∃ s', enter s = some s' ∧ s'.WF := by
  obtain ⟨line, hl, hc⟩ := (wf_def s).mp h
  have h1 := h.1
  have hle : s.row + 1 ≤ (s.buffer.set s.row (line.take s.column)).length := by
    rw [List.length_set]
    omega
  have hg : ((s.buffer.set s.row (line.take s.column)).insertIdx (s.row + 1)
      (line.drop s.column))[s.row + 1]? = some (line.drop s.column) := by
    rw [List.getElem?_eq_getElem (by rw [List.length_insertIdx _ _ hle]; omega),
      List.getElem_insertIdx_self _ _ _ hle]
  exact ⟨_, enter_eq s line hl hc, wf_scroll_to_show_cursor
    ((wf_def _).mpr ⟨line.drop s.column, hg, Nat.zero_le _⟩)⟩

theorem apply_wf (c : Cmd) (s : SourceEditor) (h : s.WF) :
    ∃ s', Cmd.apply c s = some s' ∧ s'.WF := by
  cases c with
  | moveLeft => exact ⟨_, rfl, wf_left h⟩
  | moveRight => exact right_wf h
  | moveUp => exact up_wf h
  | moveDown => exact down_wf h
  | home => exact ⟨_, rfl, wf_home h⟩
  | endOfLine => exact endKey_wf h
  | insertChar ch => exact keypress_wf ch h
  | backspace => exact backspace_wf h
  | enter => exact enter_wf h
  | resize w ht => exact ⟨_, rfl, wf_resize w ht h⟩

theorem render_isSome {s : SourceEditor} (h : s.scroll ≤ s.row) :
    (render s).isSome := by
  unfold render
  rw [if_pos h]
  rfl

/-! ## Concrete states from the spec's scenarios and for counterexamples -/

/-- Spec Scenario A state: Document ["abc", "de"], cursor (0, 3). -/
def scenA : SourceEditor :=
  { buffer := [['a', 'b', 'c'], ['d', 'e']], width := 10, height := 5,
    row := 0, column := 3, scroll := 0 }

/-- Spec Scenario B state: Document ["ab"], cursor (0, 0). -/
def scenB : SourceEditor :=
  { buffer := [['a', 'b']], width := 10, height := 5,
    row := 0, column := 0, scroll := 0 }

/-- Spec Scenario C state: Document ["hello", "world"], cursor (1, 0). -/
def scenC : SourceEditor :=
  { buffer := [['h', 'e', 'l', 'l', 'o'], ['w', 'o', 'r', 'l', 'd']],
    width := 10, height := 5, row := 1, column := 0, scroll := 0 }

/-- Spec Scenario D state: width 5, height 2, Document ["abcdefgh"],
scroll 0, cursor (0, 0). -/
def scenD : SourceEditor :=
  { buffer := [['a', 'b', 'c', 'd', 'e', 'f', 'g', 'h']], width := 5,
    height := 2, row := 0, column := 0, scroll := 0 }

/-- A well-formed state satisfying the viewport invariant
scroll ≤ row < scroll + height, cursor at column 0 of row 1, viewport of
height 1 scrolled to row 1. -/
def c1State : SourceEditor :=
  { buffer := [['a'], ['b']], width := 5, height := 1,
    row := 1, column := 0, scroll := 1 }

/-- The state the code's `backspace` produces from `c1State`. -/
def c1Result : SourceEditor :=
  { buffer := [['a', 'b']], width := 5, height := 1,
    row := 0, column := 1, scroll := 1 }

/-- A state with a valid cursor in a non-empty Document whose scroll (1)
exceeds the cursor row (0). -/
def c2State : SourceEditor :=
  { buffer := [['a']], width := 5, height := 1,
    row := 0, column := 0, scroll := 1 }

/-- A well-formed state whose cursor column (2) exceeds the width (1). -/
def c3State : SourceEditor :=
  { buffer := [['a', 'b']], width := 1, height := 1,
    row := 0, column := 2, scroll := 0 }

/-- A state whose cursor row (2) lies below a height-1 viewport at scroll 0. -/
def c5State : SourceEditor :=
  { buffer := [['a'], ['b'], ['c']], width := 4, height := 1,
    row := 2, column := 0, scroll := 0 }

/-! ## Claim theorems -/

/-- C1: the claim fails on the code — this is a bug in the code relative to
the spec's stated rule that `scroll_to_show_cursor` must run after every
operation that changes the cursor row.  `backspace`'s line-merge decrements
`row` but, unlike `enter`, `up`, `down` and `resize`, never calls
`scroll_to_show_cursor`: from `c1State`, which is well-formed and satisfies
scroll ≤ row < scroll + height with height 1, Backspace produces
scroll = 1 > row = 0, violating the viewport invariant, after which
`render`'s `row - scroll` subtraction fails. -/
theorem backspace_breaks_viewport_invariant :
    (c1State.WF ∧ c1State.scroll ≤ c1State.row ∧
      c1State.row < c1State.scroll + c1State.height ∧ 1 ≤ c1State.height) ∧
    backspace c1State = some c1Result ∧
    ¬ c1Result.scroll ≤ c1Result.row ∧
    render c1Result = none := by decide

/-- C2 counterexample: the claim fails as stated.  `c2State` has a valid
cursor (0, 0) in the non-empty Document ["a"], yet `render` reaches the
natural-number underflow `cursor.row − scroll` (scroll = 1 > row = 0) and is
not total there. -/
theorem render_not_total_on_valid_cursor :
    c2State.WF ∧ c2State.buffer ≠ [] ∧ render c2State = none := by decide

/-- C2 (amended): with a valid cursor in a non-empty Document every editing
command is total and returns a result; `render` is total given the
additional precondition scroll ≤ cursor.row, which rules out the
`cursor.row − scroll` underflow. -/
theorem core_operations_total (c : Cmd) (s : SourceEditor) (h : s.WF) :
    (Cmd.apply c s).isSome ∧ (s.scroll ≤ s.row → (render s).isSome) := by
  obtain ⟨s', hs, -⟩ := apply_wf c s h
  exact ⟨by rw [hs]; rfl, fun hsr => render_isSome hsr⟩

/-- Witness for C2 (amended) at Scenario A's state and the Enter command. -/
theorem core_operations_total_witness :
    scenA.WF ∧ ((Cmd.apply Cmd.enter scenA).isSome ∧
      (scenA.scroll ≤ scenA.row → (render scenA).isSome)) :=
  ⟨by decide, core_operations_total Cmd.enter scenA (by decide)⟩

/-- C3 counterexample: the claim fails as stated.  At the well-formed
`c3State` (column 2, width 1), `render` returns screen column 2 — the raw
cursor column — whereas min(cursor.column, width) = 1. -/
theorem render_returns_unclamped_column :
    c3State.WF ∧ render c3State = some ([['a']], 2, 0) ∧
    min c3State.column c3State.width = 1 ∧ (2 : Nat) ≠ 1 := by decide

/-- C3 (amended): whenever scroll ≤ cursor.row (so that `render` returns),
the returned cursor screen coordinates are (cursor.column, cursor.row −
scroll); the screen column is the raw cursor column, not clamped to the
width.  The final conjunct records that the screen row is the exact
difference, not a truncation. -/
theorem render_cursor_coordinates (s : SourceEditor) (h : s.scroll ≤ s.row) :
    ∃ lines, render s = some (lines, s.column, s.row - s.scroll) ∧
      s.scroll + (s.row - s.scroll) = s.row := by
  unfold render
  rw [if_pos h]
  exact ⟨_, rfl, by omega⟩

/-- Witness for C3 (amended) at `c3State`. -/
theorem render_cursor_coordinates_witness :
    c3State.scroll ≤ c3State.row ∧
    ∃ lines, render c3State = some (lines, c3State.column,
      c3State.row - c3State.scroll) ∧
      c3State.scroll + (c3State.row - c3State.scroll) = c3State.row :=
  ⟨by decide, render_cursor_coordinates c3State (by decide)⟩

/-- C4: every command applied to a well-formed state yields a well-formed
state whose Document still has at least one line: insertion, deletion
(which only merges lines, never empties the buffer), line-splitting, all
cursor moves, home, end and resize preserve 0 ≤ row < |Document| and
0 ≤ column ≤ |Document[row]|. -/
theorem apply_preserves_invariant (c : Cmd) (s : SourceEditor) (h : s.WF) :
    ∃ s', Cmd.apply c s = some s' ∧ s'.buffer ≠ [] ∧ s'.WF := by
  obtain ⟨s', hs, hw⟩ := apply_wf c s h
  exact ⟨s', hs, wf_buffer_ne_nil hw, hw⟩

/-- Witness for C4: Backspace (a line merge) at Scenario C's state. -/
theorem apply_preserves_invariant_witness :
    scenC.WF ∧ ∃ s', Cmd.apply Cmd.backspace scenC = some s' ∧
      s'.buffer ≠ [] ∧ s'.WF :=
  ⟨by decide, apply_preserves_invariant Cmd.backspace scenC (by decide)⟩

/-- C5: for every state with height ≥ 1 (scroll ≥ 0 holds inherently for a
`Nat` field), `scroll_to_show_cursor` computes the new scroll by exactly the
stated algorithm and re-establishes scroll ≥ 0 and
scroll ≤ cursor.row < scroll + height. -/
theorem scroll_to_show_cursor_postcondition (s : SourceEditor)
    (h : 1 ≤ s.height) :
    (scroll_to_show_cursor s).scroll =
      (if s.row < s.scroll then s.row
       else if s.scroll + s.height ≤ s.row then s.row - s.height + 1
       else s.scroll) ∧
    0 ≤ (scroll_to_show_cursor s).scroll ∧
    (scroll_to_show_cursor s).scroll ≤ (scroll_to_show_cursor s).row ∧
    (scroll_to_show_cursor s).row <
      (scroll_to_show_cursor s).scroll + (scroll_to_show_cursor s).height := by
  rw [scroll_to_show_cursor_eq]
  refine ⟨rfl, Nat.zero_le _, ?_, ?_⟩
  · show (if s.row < s.scroll then s.row
      else if s.scroll + s.height ≤ s.row then s.row - s.height + 1
      else s.scroll) ≤ s.row
    split
    · omega
    · split <;> omega
  · show s.row < (if s.row < s.scroll then s.row
      else if s.scroll + s.height ≤ s.row then s.row - s.height + 1
      else s.scroll) + s.height
    split
    · omega
    · split <;> omega

/-- Witness for C5 at `c5State` (cursor two rows below the viewport). -/
theorem scroll_to_show_cursor_postcondition_witness :
    1 ≤ c5State.height ∧
    ((scroll_to_show_cursor c5State).scroll =
      (if c5State.row < c5State.scroll then c5State.row
       else if c5State.scroll + c5State.height ≤ c5State.row then
         c5State.row - c5State.height + 1
       else c5State.scroll) ∧
     0 ≤ (scroll_to_show_cursor c5State).scroll ∧
     (scroll_to_show_cursor c5State).scroll ≤
       (scroll_to_show_cursor c5State).row ∧
     (scroll_to_show_cursor c5State).row <
       (scroll_to_show_cursor c5State).scroll +
         (scroll_to_show_cursor c5State).height) :=
  ⟨by decide, scroll_to_show_cursor_postcondition c5State (by decide)⟩

/-- C10: on any well-formed state, `up` at row 0 and `down` at the last row
leave the cursor (row, column) unchanged, and Backspace at (0, 0) leaves the
entire state — Document and cursor — unchanged; all three succeed as no-ops
rather than failing. -/
theorem edge_cases_are_noops (s : SourceEditor) (h : s.WF) :
    (s.row = 0 → ∃ s', up s = some s' ∧ s'.row = s.row ∧
      s'.column = s.column) ∧
    (s.row = s.buffer.length - 1 → ∃ s', down s = some s' ∧ s'.row = s.row ∧
      s'.column = s.column) ∧
    (s.row = 0 → s.column = 0 → backspace s = some s) := by
  obtain ⟨line, hl, hc⟩ := (wf_def s).mp h
  refine ⟨?_, ?_, fun hr hcol => backspace_noop_eq s hcol hr⟩
  · intro h0
    rw [up_eq, if_neg (by omega), clamp_column_eq s line hl,
      if_neg (Nat.not_lt.mpr hc)]
    exact ⟨_, rfl, scroll_to_show_cursor_row s, scroll_to_show_cursor_column s⟩
  · intro hlast
    rw [down_eq, if_neg (by omega), clamp_column_eq s line hl,
      if_neg (Nat.not_lt.mpr hc)]
    exact ⟨_, rfl, scroll_to_show_cursor_row s, scroll_to_show_cursor_column s⟩

/-- Witness for C10 at Scenario B's state, where the cursor is at (0, 0) and
row 0 is also the last row. -/
theorem edge_cases_are_noops_witness :
    scenB.WF ∧
    ((scenB.row = 0 → ∃ s', up scenB = some s' ∧ s'.row = scenB.row ∧
      s'.column = scenB.column) ∧
    (scenB.row = scenB.buffer.length - 1 → ∃ s', down scenB = some s' ∧
      s'.row = scenB.row ∧ s'.column = scenB.column) ∧
    (scenB.row = 0 → scenB.column = 0 → backspace scenB = some scenB)) :=
  ⟨by decide, edge_cases_are_noops scenB (by decide)⟩

/-- Setting index `row - 1` of `buffer.eraseIdx row` (for 0 < row < |buffer|)
splices the new line between the first `row - 1` lines and the lines after
`row`. -/
theorem eraseIdx_set_pred (buffer : List (List Char)) (row : Nat)
    (v : List Char) (hr : row ≠ 0) (hrow : row < buffer.length) :
    (buffer.eraseIdx row).set (row - 1) v =
      buffer.take (row - 1) ++ v :: buffer.drop (row + 1) := by
  have hlen : (buffer.eraseIdx row).length = buffer.length - 1 := by
    rw [List.length_eraseIdx, if_pos hrow]
  apply List.ext_getElem?
  intro n
  rw [List.getElem?_set, List.getElem?_append]
  rcases Nat.lt_trichotomy n (row - 1) with hn | hn | hn
  · rw [if_neg (by omega), List.getElem?_eraseIdx, if_pos (by omega),
      if_pos (by rw [List.length_take]; omega), List.getElem?_take, if_pos hn]
  · rw [if_pos hn.symm, if_pos (by omega),
      if_neg (by rw [List.length_take]; omega)]
    have h0 : n - (List.take (row - 1) buffer).length = 0 := by
      rw [List.length_take]; omega
    rw [h0, List.getElem?_cons_zero]
  · rw [if_neg (by omega), List.getElem?_eraseIdx, if_neg (by omega),
      if_neg (by rw [List.length_take]; omega)]
    have hk : n - (List.take (row - 1) buffer).length = (n - row) + 1 := by
      rw [List.length_take]; omega
    rw [hk, List.getElem?_cons_succ, List.getElem?_drop]
    have he : row + 1 + (n - row) = n + 1 := by omega
    rw [he]

/-- C6: on any well-formed state with the cursor at column 0 of a row > 0,
Backspace appends the full content of line `row` onto the end of line
`row − 1`, removes line `row`, and moves the cursor to (row − 1, |original
line row − 1|). -/
theorem backspace_merges_line_into_previous (s : SourceEditor) (h : s.WF)
    (hc : s.column = 0) (hr : 0 < s.row) :
    ∃ prev cur, s.buffer[s.row - 1]? = some prev ∧
      s.buffer[s.row]? = some cur ∧
      backspace s = some { s with
        buffer := s.buffer.take (s.row - 1) ++ (prev ++ cur) ::
          s.buffer.drop (s.row + 1),
        row := s.row - 1,
        column := prev.length } := by
  obtain ⟨cur, hl, -⟩ := (wf_def s).mp h
  have hrow := h.1
  have hr1 : s.row - 1 < s.buffer.length := by omega
  have hprev0 := List.getElem?_eq_getElem hr1
  have hprevE : (s.buffer.eraseIdx s.row)[s.row - 1]? = s.buffer[s.row - 1]? := by
    rw [List.getElem?_eraseIdx, if_pos (by omega)]
  refine ⟨s.buffer[s.row - 1], cur, hprev0, hl, ?_⟩
  rw [backspace_merge_eq s cur (s.buffer[s.row - 1]) hc (by omega) hl
    (by rw [hprevE]; exact hprev0),
    eraseIdx_set_pred s.buffer s.row _ (by omega) hrow]

/-- Witness for C6 at Scenario C's state: merging "world" onto "hello". -/
theorem backspace_merges_line_into_previous_witness :
    (scenC.WF ∧ scenC.column = 0 ∧ 0 < scenC.row) ∧
    ∃ prev cur, scenC.buffer[scenC.row - 1]? = some prev ∧
      scenC.buffer[scenC.row]? = some cur ∧
      backspace scenC = some { scenC with
        buffer := scenC.buffer.take (scenC.row - 1) ++ (prev ++ cur) ::
          scenC.buffer.drop (scenC.row + 1),
        row := scenC.row - 1,
        column := prev.length } :=
  ⟨⟨by decide, by decide, by decide⟩,
    backspace_merges_line_into_previous scenC (by decide) (by decide)
      (by decide)⟩

/-- C7: on any well-formed state, Enter (split at the cursor) followed by
Backspace (at the resulting position (row + 1, 0)) restores the original
Document and the original cursor row and column. -/
theorem enter_then_backspace_round_trip (s : SourceEditor) (h : s.WF) :
    ∃ s₁ s₂, enter s = some s₁ ∧ backspace s₁ = some s₂ ∧
      s₂.buffer = s.buffer ∧ s₂.row = s.row ∧ s₂.column = s.column := by
  obtain ⟨line, hl, hc⟩ := (wf_def s).mp h
  have h1 := h.1
  have hle : s.row + 1 ≤ (s.buffer.set s.row (line.take s.column)).length := by
    rw [List.length_set]
    omega
  have hg : ((s.buffer.set s.row (line.take s.column)).insertIdx (s.row + 1)
      (line.drop s.column))[s.row + 1]? = some (line.drop s.column) := by
    rw [List.getElem?_eq_getElem (by rw [List.length_insertIdx _ _ hle]; omega),
      List.getElem_insertIdx_self _ _ _ hle]
  have hcol : (scroll_to_show_cursor { s with
      buffer := (s.buffer.set s.row (line.take s.column)).insertIdx
        (s.row + 1) (line.drop s.column),
      row := s.row + 1, column := 0 }).column = 0 :=
    scroll_to_show_cursor_column _
  have hrow1 : (scroll_to_show_cursor { s with
      buffer := (s.buffer.set s.row (line.take s.column)).insertIdx
        (s.row + 1) (line.drop s.column),
      row := s.row + 1, column := 0 }).row = s.row + 1 :=
    scroll_to_show_cursor_row _
  have hbuf1 : (scroll_to_show_cursor { s with
      buffer := (s.buffer.set s.row (line.take s.column)).insertIdx
        (s.row + 1) (line.drop s.column),
      row := s.row + 1, column := 0 }).buffer =
      (s.buffer.set s.row (line.take s.column)).insertIdx
        (s.row + 1) (line.drop s.column) :=
    scroll_to_show_cursor_buffer _
  have hback := backspace_merge_eq
    (scroll_to_show_cursor { s with
      buffer := (s.buffer.set s.row (line.take s.column)).insertIdx
        (s.row + 1) (line.drop s.column),
      row := s.row + 1, column := 0 })
    (line.drop s.column) (line.take s.column) hcol
    (by rw [hrow1]; omega)
    (by rw [hbuf1, hrow1]; exact hg)
    (by
      rw [hbuf1, hrow1, List.eraseIdx_insertIdx, Nat.add_sub_cancel,
        List.getElem?_set]
      simp [h1])
  refine ⟨_, _, enter_eq s line hl hc, hback, ?_, ?_, ?_⟩
  · show ((scroll_to_show_cursor _).buffer.eraseIdx
        (scroll_to_show_cursor _).row).set ((scroll_to_show_cursor _).row - 1)
        (line.take s.column ++ line.drop s.column) = s.buffer
    rw [hbuf1, hrow1, List.eraseIdx_insertIdx, Nat.add_sub_cancel,
      List.take_append_drop, List.set_set, set_getElem?_self s.buffer s.row line hl]
  · show (scroll_to_show_cursor _).row - 1 = s.row
    rw [hrow1]
    omega
  · show (line.take s.column).length = s.column
    rw [List.length_take]
    omega

/-- Witness for C7 at Scenario A's state (split "abc" at column 3, then
merge back). -/
theorem enter_then_backspace_round_trip_witness :
    scenA.WF ∧
    ∃ s₁ s₂, enter scenA = some s₁ ∧ backspace s₁ = some s₂ ∧
      s₂.buffer = scenA.buffer ∧ s₂.row = scenA.row ∧
      s₂.column = scenA.column :=
  ⟨by decide, enter_then_backspace_round_trip scenA (by decide)⟩

/-- C8: on any well-formed state, inserting a character and then pressing
Backspace at the resulting position (row, col + 1) restores the exact
original state — Document line content, cursor and viewport. -/
theorem insert_then_backspace_round_trip (s : SourceEditor) (c : Char)
    (h : s.WF) :
    ∃ s₁, keypress s c = some s₁ ∧ backspace s₁ = some s := by
  obtain ⟨buf, w, ht, r, col, sc⟩ := s
  obtain ⟨line, hl, hc⟩ := (wf_def _).mp h
  have h1 := h.1
  replace h1 : r < buf.length := h1
  replace hc : col ≤ line.length := hc
  replace hl : buf[r]? = some line := hl
  refine ⟨_, keypress_eq _ c line hl hc, ?_⟩
  have hl1 : (buf.set r (line.insertIdx col c))[r]? =
      some (line.insertIdx col c) := by
    rw [List.getElem?_set]
    simp [h1]
  have hlt : col + 1 - 1 < (line.insertIdx col c).length := by
    rw [List.length_insertIdx _ _ hc]
    omega
  have hbuf2 : (buf.set r (line.insertIdx col c)).set r
      ((line.insertIdx col c).eraseIdx col) = buf := by
    rw [List.eraseIdx_insertIdx, List.set_set,
      set_getElem?_self buf r line hl]
  rw [backspace_delete_eq _ (line.insertIdx col c) (by show col + 1 ≠ 0; omega)
    hl1 hlt]
  simp [hbuf2]

/-- Witness for C8: inserting 'z' at Scenario D's state and deleting it. -/
theorem insert_then_backspace_round_trip_witness :
    scenD.WF ∧
    ∃ s₁, keypress scenD 'z' = some s₁ ∧ backspace s₁ = some scenD :=
  ⟨by decide, insert_then_backspace_round_trip scenD 'z' (by decide)⟩

/-- The code keeps a line whole when it is shorter than the width and
otherwise slices its first `width` characters; both cases equal taking the
first `width` characters. -/
theorem truncate_eq_take (w : Nat) (l : List Char) :
    (if l.length < w then l else l.take w) = l.take w := by
  split
  · next hlt => exact (List.take_of_length_le (Nat.le_of_lt hlt)).symm
  · rfl

/-- Transcription of the spec's sentence describing `renderFrame`'s display
rows, for comparison with the code's `render`: "for each of `height` screen
rows, select Document line at index `scroll + offset` if it exists
(truncated to `width` characters), else substitute an end-of-document marker
line". -/
def specRenderRows (s : SourceEditor) : List (List Char) :=
  (List.range s.height).map fun i =>
    match s.buffer[s.scroll + i]? with
    | some line => line.take s.width
    | none => tilde

/-- A well-formed state (cursor (0, 0) in Document ["x"]) whose scroll (2)
exceeds the cursor row, so `render` fails instead of returning rows. -/
def c9State : SourceEditor :=
  { buffer := [['x']], width := 3, height := 2,
    row := 0, column := 0, scroll := 2 }

/-- C9 counterexample: the claim fails as stated for every state — at the
well-formed `c9State` (scroll = 2 > row = 0) `render` hits the
`cursor.row − scroll` underflow and returns no display rows at all. -/
theorem render_can_return_no_rows :
    c9State.WF ∧ render c9State = none := by decide

/-- C9 (amended): whenever scroll ≤ cursor.row, so that `render` returns,
its display rows are exactly as the spec states: exactly `height` rows, row
offset `i` being Document[scroll + i] truncated to the first `width`
characters when that index exists and the end-of-document marker line
otherwise. -/
theorem render_rows_match_spec (s : SourceEditor) (lines : List (List Char))
    (col row : Nat) (h : render s = some (lines, col, row)) :
    lines = specRenderRows s ∧ lines.length = s.height := by
  have hmain : lines = specRenderRows s := by
    unfold render at h
    by_cases hg : s.scroll ≤ s.row
    · rw [if_pos hg] at h
      simp only [Option.some.injEq, Prod.mk.injEq] at h
      obtain ⟨hlines, -, -⟩ := h
      subst hlines
      apply List.ext_getElem?
      intro n
      simp only [specRenderRows, List.getElem?_append, List.length_map,
        List.getElem?_map, List.length_take, List.length_drop,
        truncate_eq_take]
      by_cases hn : n < min s.height (s.buffer.length - s.scroll)
      · have hsn : s.scroll + n < s.buffer.length := by omega
        have hsome := List.getElem?_eq_getElem hsn
        rw [if_pos hn, List.getElem?_take, if_pos (by omega),
          List.getElem?_drop, List.getElem?_range (by omega), hsome]
        simp [hsome]
      · rw [if_neg hn]
        by_cases hh : n < s.height
        · have hnone : s.buffer[s.scroll + n]? = none :=
            List.getElem?_eq_none (by omega)
          rw [List.getElem?_replicate, if_pos (by omega),
            List.getElem?_range hh]
          simp [hnone]
        · rw [List.getElem?_replicate, if_neg (by omega),
            List.getElem?_eq_none (by rw [List.length_range]; omega)]
          rfl
    · rw [if_neg hg] at h
      cases h
  refine ⟨hmain, ?_⟩
  rw [hmain]
  unfold specRenderRows
  rw [List.length_map, List.length_range]

/-- The two display rows of Scenario D: "abcde" and the marker "~". -/
def scenDRows : List (List Char) := [['a', 'b', 'c', 'd', 'e'], ['~']]

/-- Witness for C9 at Scenario D: `render` yields row 0 = "abcde" (line
"abcdefgh" truncated to width 5) and row 1 = the end-of-document marker. -/
theorem render_rows_match_spec_witness :
    render scenD = some (scenDRows, 0, 0) ∧
    (scenDRows = specRenderRows scenD ∧ scenDRows.length = scenD.height) :=
  ⟨by decide, render_rows_match_spec scenD scenDRows 0 0 (by decide)⟩

end SourceEditor
